import Mathlib

/-!
Verification of the DMKernel language front-end and evaluator.

This file is a shallow embedding, in Lean 4, of the core of the DMKernel
repository: the lexer (src/lang/lexer.c, the variant whose keyword test
compares length-delimited lexemes and which reports syntax errors for
unterminated strings and unknown characters), the recursive-descent parser
(src/lang/parser.c), the scope/value machinery (dm_scope_create,
dm_scope_define, dm_scope_lookup, dm_value_copy in context.c) and the
tree-walking evaluator (dm_eval_node and the eval_* helpers in exec.c),
plus the exit-code logic of main.c.

Modelling conventions:
- C doubles are modelled as rational numbers.  Every computation appearing
  in a theorem below is exact in IEEE double precision (small integers and
  exact sums, differences and products), so the rational model agrees with
  the C semantics on those inputs.
- The hash table inside a scope (64 buckets of linked symbol lists) is
  modelled as an association list; dm_scope_define replaces an existing
  binding in place or inserts a new one, dm_scope_lookup walks the scope
  chain, which is all the C observable behaviour since names are unique
  within a scope.
- The context (dm_context_t) is modelled by its evaluator-relevant state:
  the scope chain (current scope first, global scope last) and the text
  printed to the output stream by eval_program.  Error message strings and
  line/column positions are not modelled; error codes (dm_error_t) are.
- Recursion in the C interpreter is unbounded; the Lean functions take a
  fuel argument and return a distinguished out-of-fuel marker (never a
  language-level error) when it runs out.  Concrete theorems supply ample
  fuel; general theorems relate fuel n calls to fuel n+1 calls exactly as
  the C call structure does.
-/

/- Batteries marks the rational arithmetic operations irreducible; the
concrete theorems below are proved by definitional evaluation, so restore
ordinary reducibility for this file (the kernel is unaffected either
way). -/
attribute [local semireducible] Rat.add Rat.mul Rat.inv Rat.sub Rat.ofScientific

namespace DMKernel

/-- Binary and unary operator codes, mirroring dm_operator_t in the parser
header.  The invalid constructor mirrors the C cast of -1 that
get_binary_operator returns for an unknown character. -/
inductive Op where
  | add | sub | mul | div | mod
  | eq | neq | lt | gt | lte | gte
  | and | or
  | neg | not
  | invalid
  deriving DecidableEq, Repr

/-- AST nodes, mirroring dm_node_t.  Literal payloads (dm_literal_t) are
inlined as four constructors.  The forLoop and importNode variants of the C
enum are never produced by the parser and are omitted. -/
inductive Node where
  | program (stmts : List Node)
  | block (stmts : List Node)
  | numLit (value : Rat)
  | strLit (value : String)
  | boolLit (value : Bool)
  | nullLit
  | variable (name : String)
  | assignment (name : String) (value : Node) (is_declaration : Bool)
  | binary (op : Op) (left right : Node)
  | unary (op : Op) (operand : Node)
  | ifStmt (condition then_branch : Node) (else_branch : Option Node)
  | whileLoop (condition body : Node)
  | call (name : String) (args : List Node)
  | funcDecl (name : String) (params : List String) (body : Node)
  | ret (value : Option Node)

/-- Literal evaluation results: every successful dm_eval_node call returns a
freshly allocated node of kind DM_NODE_LITERAL, modelled here directly by
the literal payload. -/
inductive Lit where
  | num (value : Rat)
  | str (value : String)
  | bool (value : Bool)
  | null
  deriving DecidableEq, Repr

/-- Stored values (dm_value_t).  The evaluator creates null, boolean, float,
string and function values; integers exist in the C union but are never
produced by the evaluator.  vobject stands for the opaque object the VFS
stashes in the global scope under the name dm_vfs. -/
inductive Value where
  | vnull
  | vbool (b : Bool)
  | vint (i : Int)
  | vfloat (q : Rat)
  | vstring (s : String)
  | vfunction (params : List String) (body : Node)
  | vobject

/-- Error codes (the dm_error_t values the front end and evaluator raise).
noFuel is the out-of-fuel marker of the Lean model, not a C error. -/
inductive Err where
  | invalidArgument
  | memoryAllocation
  | fileIoErr
  | syntaxError
  | typeMismatch
  | undefinedVariable
  | divisionByZero
  | noFuel
  deriving DecidableEq, Repr

/-- One scope: an association list from names to values, modelling the
64-bucket hash table of dm_scope_t (names are unique per scope, so bucket
structure is unobservable). -/
abbrev Scope := List (String × Value)

/-- Evaluator state: the scope chain (innermost scope first, global scope
last, mirroring the parent pointers walked by dm_scope_lookup) and the text
written to the context output stream by eval_program. -/
structure St where
  scopes : List Scope
  output : List String

/-- dm_scope_define on a single scope: if the name exists its value is
replaced, otherwise a new symbol is inserted (the C inserts at the bucket
head; position is unobservable through lookup). -/
def dm_scope_define_one (s : Scope) (name : String) (v : Value) : Scope :=
  if s.any (fun p => p.1 = name) then
    s.map (fun p => if p.1 = name then (name, v) else p)
  else
    (name, v) :: s

/-- dm_scope_define applied to the current (innermost) scope of a chain,
which is how every call site in exec.c uses it (ctx->current_scope or a
freshly created scope). -/
def defineCurrent (chain : List Scope) (name : String) (v : Value) : List Scope :=
  match chain with
  | [] => []
  | s :: rest => dm_scope_define_one s name v :: rest

/-- dm_scope_lookup: search the scope, then its parents; returns none where
the C returns DM_ERROR_INVALID_ARGUMENT (callers turn that into
DM_ERROR_UNDEFINED_VARIABLE). -/
def dm_scope_lookup (chain : List Scope) (name : String) : Option Value :=
  match chain with
  | [] => none
  | s :: rest =>
    match s.find? (fun p => p.1 = name) with
    | some p => some p.2
    | none => dm_scope_lookup rest name

/-- Conversion performed by eval_assignment and the argument loop of
eval_function_call when a literal result node is stored into a scope:
numbers become floats, strings are deep-copied, booleans and null carry
over. -/
def litToValue : Lit → Value
  | .num q => .vfloat q
  | .str s => .vstring s
  | .bool b => .vbool b
  | .null => .vnull

/-- Conversion performed by eval_variable when a stored value is turned back
into a literal result node; function, object, array and matrix values
produce null (the default branch of the C switch). -/
def valueToLit : Value → Lit
  | .vnull => .null
  | .vbool b => .bool b
  | .vint i => .num (i : Rat)
  | .vfloat q => .num q
  | .vstring s => .str s
  | _ => .null

/-- Numeric coercion used by the arithmetic branch of eval_binary: numbers
pass through, booleans coerce to 0 or 1, all other literal kinds are
invalid (TYPE_MISMATCH). -/
def litToNum : Lit → Option Rat
  | .num q => some q
  | .bool b => some (if b then 1 else 0)
  | _ => none

/-- Truthiness coercion shared by eval_if, eval_while and the logical branch
of eval_binary: booleans stand for themselves, numbers are true when
nonzero, strings when nonempty, null is false. -/
def litTruthy : Lit → Bool
  | .bool b => b
  | .num q => q != 0
  | .str s => s.length > 0
  | .null => false

/-- Left-pad a natural number with zeros to six digits, for the fractional
part of the printf %f format. -/
def pad6 (n : Nat) : String :=
  let s := toString n
  String.mk (List.replicate (6 - s.length) '0') ++ s

/-- Floor of a rational, computed by flooring integer division (kept
elementary so that concrete proofs reduce in the kernel). -/
def floorQ (q : Rat) : Int := Int.fdiv q.num (q.den : Int)

/-- Ceiling of a rational. -/
def ceilQ (q : Rat) : Int := -(Int.fdiv (-q.num) (q.den : Int))

/-- The printf %f rendering used by dm_node_to_string for numbers: sign,
integer part, a dot and exactly six fractional digits.  Rounding of the
scaled value only matters for numbers that are not exact multiples of
10^-6; every number formatted in this file is exact. -/
def formatNumber (q : Rat) : String :=
  if q < 0 then
    let n : Int := floorQ ((-q) * 1000000 + 1/2)
    "-" ++ toString (n / 1000000) ++ "." ++ pad6 (n % 1000000).toNat
  else
    let n : Int := floorQ (q * 1000000 + 1/2)
    toString (n / 1000000) ++ "." ++ pad6 (n % 1000000).toNat

/-- dm_node_to_string: numbers via %f, strings verbatim, booleans as the
words true and false, null as the word null. -/
def dm_node_to_string : Lit → String
  | .num q => formatNumber q
  | .str s => s
  | .bool b => if b then "true" else "false"
  | .null => "null"

end DMKernel

namespace DMKernel

/-- Token kinds produced by dm_lexer_next_token (dm_token_t).  For string
tokens the C lexeme includes both quotes and parse_primary strips one
character from each end; strTok stores the stripped interior directly,
which is the composition of the two. -/
inductive Token where
  | eof
  | ident (text : String)
  | keyword (text : String)
  | number (text : String)
  | strTok (inner : String)
  | operator (text : String)
  | symbol (c : Char)
  deriving DecidableEq, Repr

/-- Keyword table of the lexer (the KEYWORDS array). -/
def KEYWORDS : List String :=
  ["break", "case", "class", "const", "continue", "default",
   "else", "export", "extends", "false", "for", "function",
   "if", "import", "let", "null", "return", "static", "super",
   "switch", "this", "true", "var", "while"]

/-- Whitespace recognised by the C isspace used in
skip_whitespace_and_comments. -/
def isSpaceC (c : Char) : Bool :=
  c == ' ' || c == '\t' || c == '\n' || c == '\x0b' || c == '\x0c' || c == '\r'

/-- Characters that start an operator token. -/
def opChars : List Char :=
  ['+', '-', '*', '/', '%', '=', '<', '>', '!', '&', '|', '^', '~']

/-- Characters lexed as single-character symbol tokens. -/
def symChars : List Char :=
  ['(', ')', '[', ']', '\x7b', '\x7d', ';', ',', '.']

/-- Two-character operator pairs the lexer recognises. -/
def isTwoCharOp (c1 c2 : Char) : Bool :=
  (c1 == '=' && c2 == '=') || (c1 == '!' && c2 == '=') ||
  (c1 == '<' && c2 == '=') || (c1 == '>' && c2 == '=') ||
  (c1 == '&' && c2 == '&') || (c1 == '|' && c2 == '|')

/-- Skip a run of whitespace; the boolean reports whether anything was
skipped (the skipped_something flag). -/
def skipWsRun : List Char → (List Char × Bool)
  | [] => ([], false)
  | c :: cs =>
    if isSpaceC c then
      let r := skipWsRun cs
      (r.1, true)
    else (c :: cs, false)

/-- Skip the body of a line comment: advance to (but not past) the next
newline or the end of input. -/
def skipLineBody : List Char → List Char
  | [] => []
  | c :: cs => if c == '\n' then c :: cs else skipLineBody cs

/-- Skip the body of a block comment.  The C loop runs while two characters
remain and they are not the closing marker; on a missing close the position
is left one character before the end of input and the skipped flag stays
false, which this function reproduces. -/
def skipBlockBody : List Char → (List Char × Bool)
  | '*' :: '/' :: cs => (cs, true)
  | [] => ([], false)
  | [c] => ([c], false)
  | _ :: cs => skipBlockBody cs

/-- One iteration of the do-while loop in skip_whitespace_and_comments:
whitespace run, then at most one line comment, then at most one block
comment. -/
def skipRound (s : List Char) : (List Char × Bool) :=
  let r1 := skipWsRun s
  let r2 := match r1.1 with
    | '/' :: '/' :: rest => (skipLineBody rest, true)
    | other => (other, false)
  let r3 := match r2.1 with
    | '/' :: '*' :: rest => skipBlockBody rest
    | other => (other, false)
  (r3.1, r1.2 || r2.2 || r3.2)

/-- skip_whitespace_and_comments: repeat rounds while progress is made.  The
fuel bound length+1 suffices because every productive round consumes at
least one character. -/
def skipWC : Nat → List Char → List Char
  | 0, s => s
  | n + 1, s =>
    let r := skipRound s
    if r.2 then skipWC n r.1 else r.1

/-- Scan the tail of an identifier or keyword: alphanumerics and
underscores. -/
def scanWord : List Char → (List Char × List Char)
  | [] => ([], [])
  | c :: cs =>
    if c.isAlphanum || c == '_' then
      let r := scanWord cs
      (c :: r.1, r.2)
    else ([], c :: cs)

/-- Scan a number token: digits and at most one dot (the scan stops at a
second dot); this lexer has no exponent handling. -/
def scanNum : Bool → List Char → (List Char × List Char)
  | _, [] => ([], [])
  | hasDot, c :: cs =>
    if c.isDigit then
      let r := scanNum hasDot cs
      (c :: r.1, r.2)
    else if c == '.' && !hasDot then
      let r := scanNum true cs
      (c :: r.1, r.2)
    else ([], c :: cs)

/-- Scan the interior of a string literal up to the closing quote q.  A
backslash consumes the following character verbatim (both characters stay
in the lexeme).  Reaching the end of input without a closing quote is the
unterminated-string syntax error, returned as none. -/
def scanStr (q : Char) : List Char → Option (List Char × List Char)
  | [] => none
  | c :: cs =>
    if c == q then some ([], cs)
    else if c == '\\' then
      match cs with
      | c2 :: cs2 => (scanStr q cs2).map (fun r => (c :: c2 :: r.1, r.2))
      | [] => none
    else (scanStr q cs).map (fun r => (c :: r.1, r.2))

/-- dm_lexer_next_token: skip whitespace and comments, then scan one token.
none models the DM_ERROR_SYNTAX_ERROR returns (unterminated string, unknown
character). -/
def dm_lexer_next_token (s : List Char) : Option (Token × List Char) :=
  let s := skipWC (s.length + 1) s
  match s with
  | [] => some (.eof, [])
  | c :: cs =>
    if c.isAlpha || c == '_' then
      let r := scanWord (c :: cs)
      let txt := String.mk r.1
      if KEYWORDS.contains txt then some (.keyword txt, r.2)
      else some (.ident txt, r.2)
    else if c.isDigit then
      let r := scanNum false (c :: cs)
      some (.number (String.mk r.1), r.2)
    else if c == '"' || c == Char.ofNat 39 then
      match scanStr c cs with
      | some r => some (.strTok (String.mk r.1), r.2)
      | none => none
    else if opChars.contains c then
      match cs with
      | c2 :: rest =>
        if isTwoCharOp c c2 then some (.operator (String.mk [c, c2]), rest)
        else some (.operator (String.mk [c]), cs)
      | [] => some (.operator (String.mk [c]), [])
    else if symChars.contains c then some (.symbol c, cs)
    else none

end DMKernel

namespace DMKernel

/-- Consume digits, accumulating a natural number; used by the model of the
C atof that parse_primary applies to the number token (atof reads from the
token start pointer, i.e. the token text followed by the rest of the
source). -/
def atofDigits : List Char → Nat → (Nat × List Char)
  | [], acc => (acc, [])
  | c :: cs, acc =>
    if c.isDigit then atofDigits cs (acc * 10 + (c.toNat - 48))
    else (acc, c :: cs)

/-- Consume fraction digits, returning the accumulated digits and their
count. -/
def atofFrac : List Char → Nat → Nat → (Nat × Nat × List Char)
  | [], acc, k => (acc, k, [])
  | c :: cs, acc, k =>
    if c.isDigit then atofFrac cs (acc * 10 + (c.toNat - 48)) (k + 1)
    else (acc, k, c :: cs)

/-- Model of C atof on a character sequence: optional leading whitespace and
sign, integer digits, optional fractional part, optional decimal exponent.
Exact (rational) arithmetic; all numbers in the theorems below are exactly
representable doubles, where atof agrees. -/
def atofQ (s : List Char) : Rat :=
  let s := s.dropWhile isSpaceC
  let signAndRest : Rat × List Char :=
    match s with
    | '-' :: r => (-1, r)
    | '+' :: r => (1, r)
    | _ => (1, s)
  let ipr := atofDigits signAndRest.2 0
  let fpr : Nat × Nat × List Char :=
    match ipr.2 with
    | '.' :: r => atofFrac r 0 0
    | other => (0, 0, other)
  let expPart : Int :=
    match fpr.2.2 with
    | 'e' :: r | 'E' :: r =>
      match r with
      | '-' :: r2 => -(Int.ofNat (atofDigits r2 0).1)
      | '+' :: r2 => Int.ofNat (atofDigits r2 0).1
      | _ => Int.ofNat (atofDigits r 0).1
    | _ => 0
  let mantissa : Rat :=
    (ipr.1 : Rat) + (fpr.1 : Rat) / ((10 : Rat) ^ fpr.2.1)
  let scaled : Rat :=
    if expPart ≥ 0 then mantissa * (10 : Rat) ^ expPart.toNat
    else mantissa / (10 : Rat) ^ (-expPart).toNat
  signAndRest.1 * scaled

/-- Parser state: the current token and the characters the lexer has not yet
consumed (dm_parser_t holds the current token and the lexer position). -/
structure ParserSt where
  cur : Token
  rest : List Char
  deriving Repr

/-- Parser failure: parseFail models every NULL return of the C parse
functions (all mapped to DM_ERROR_SYNTAX_ERROR by dm_parser_parse); noFuel
is the out-of-fuel marker of the model. -/
inductive PErr where
  | parseFail
  | noFuel
  deriving DecidableEq, Repr

/-- Intermediate parser results: a node, or the parameter-name list built by
the parameter loop of parse_function. -/
inductive POut where
  | node (n : Node)
  | names (ps : List String)

/-- The consume helper: fetch the next token.  none (a lexer syntax error)
becomes a parse failure in the checked call sites. -/
def consume (p : ParserSt) : Option ParserSt :=
  (dm_lexer_next_token p.rest).map (fun r => ⟨r.1, r.2⟩)

/-- Checked consume, as used by the call sites that test the return value of
the C consume. -/
def consumeE (p : ParserSt) : Except PErr ParserSt :=
  match consume p with
  | some q => .ok q
  | none => .error .parseFail

/-- match_keyword: current token is a keyword with the given spelling. -/
def isKw (p : ParserSt) (kw : String) : Bool :=
  match p.cur with
  | .keyword s => s == kw
  | _ => false

/-- match_symbol: current token is the given single-character symbol. -/
def isSym (p : ParserSt) (c : Char) : Bool :=
  match p.cur with
  | .symbol c2 => c2 == c
  | _ => false

/-- The parser test for the assignment operator: an operator token of length
one whose text is the equals sign. -/
def isEqOp (p : ParserSt) : Bool :=
  match p.cur with
  | .operator s => s == "="
  | _ => false

/-- First character of the current operator token (the C code inspects
current.text[0]); none when the current token is not an operator. -/
def opFirst (p : ParserSt) : Option Char :=
  match p.cur with
  | .operator s => s.data.head?
  | _ => none

/-- get_binary_precedence: additive operators bind at 1, multiplicative at
2, every other character (including the first character of the comparison
and logical operators) at 0, which ends the precedence-climbing loop. -/
def get_binary_precedence (c : Char) : Nat :=
  if c == '+' || c == '-' then 1
  else if c == '*' || c == '/' || c == '%' then 2
  else 0

/-- get_binary_operator: the five arithmetic characters; anything else maps
to the invalid marker (the C casts -1). -/
def get_binary_operator (c : Char) : Op :=
  if c == '+' then .add
  else if c == '-' then .sub
  else if c == '*' then .mul
  else if c == '/' then .div
  else if c == '%' then .mod
  else .invalid

/-- Parser tasks, one per C parse function plus one per internal loop.  The
accumulators carry the partial lists the C loops build in place. -/
inductive PTask where
  | pProgram
  | pProgramLoop (acc : List Node)
  | pStatement
  | pAssignment
  | pExpr
  | pBinary (prec : Nat)
  | pBinaryLoop (prec : Nat) (left : Node)
  | pUnary
  | pPrimary
  | pCallArgs (name : String) (acc : List Node)
  | pBlock
  | pBlockLoop (acc : List Node)
  | pIf
  | pWhile
  | pFunction
  | pParamsLoop (acc : List String)
  | pReturn

/-- Project a node result (unreachable mismatches fail like any parse
error). -/
def asNode : POut × ParserSt → Except PErr (Node × ParserSt)
  | (.node n, p) => .ok (n, p)
  | (_, _) => .error .parseFail

/-- Project a name-list result. -/
def asNames : POut × ParserSt → Except PErr (List String × ParserSt)
  | (.names ps, p) => .ok (ps, p)
  | (_, _) => .error .parseFail

/-- The recursive-descent parser of parser.c, one step per task.  Each
recursive call spends one unit of fuel; with enough fuel the function
computes exactly what the C parser computes on the same input. -/
def parseGo : Nat → PTask → ParserSt → Except PErr (POut × ParserSt)
  | 0, _, _ => .error .noFuel
  | f + 1, task, p =>
    match task with
    | .pProgram => do
      -- parse_program: fetch the first token, then the statement loop
      let p1 ← consumeE p
      parseGo f (.pProgramLoop []) p1
    | .pProgramLoop acc =>
      if p.cur == .eof then .ok (.node (.program acc.reverse), p)
      else do
        let r ← parseGo f .pStatement p
        let (stmt, p1) ← asNode r
        parseGo f (.pProgramLoop (stmt :: acc)) p1
    | .pStatement =>
      if isKw p "let" || isKw p "var" || isKw p "const" then
        parseGo f .pAssignment p
      else if isKw p "function" then
        parseGo f .pFunction p
      else if isKw p "return" then
        parseGo f .pReturn p
      else if isKw p "if" then
        parseGo f .pIf p
      else if isKw p "while" then
        parseGo f .pWhile p
      else if isSym p '\x7b' then
        parseGo f .pBlock p
      else
        match p.cur with
        | .ident name => do
          -- one-token lookahead after an identifier
          let p1 ← consumeE p
          if isEqOp p1 then do
            -- non-declaration assignment statement
            let p2 ← consumeE p1
            let r ← parseGo f .pExpr p2
            let (v, p3) ← asNode r
            if isSym p3 ';' then do
              let p4 ← consumeE p3
              .ok (.node (.assignment name v false), p4)
            else .error .parseFail
          else
            -- not an assignment: a bare variable reference statement,
            -- which must be followed immediately by a semicolon
            if isSym p1 ';' then do
              let p2 ← consumeE p1
              .ok (.node (.variable name), p2)
            else .error .parseFail
        | _ => do
          -- expression statement
          let r ← parseGo f .pExpr p
          let (e, p1) ← asNode r
          if isSym p1 ';' then do
            let p2 ← consumeE p1
            .ok (.node e, p2)
          else .error .parseFail
    | .pAssignment => do
      -- parse_assignment: optional declaration keyword, name, equals,
      -- expression, semicolon
      let declAndP : Bool × ParserSt ←
        if isKw p "let" || isKw p "var" then do
          let p1 ← consumeE p
          pure (true, p1)
        else if isKw p "const" then do
          let p1 ← consumeE p
          pure (true, p1)
        else pure (false, p)
      let isDecl := declAndP.1
      let p := declAndP.2
      match p.cur with
      | .ident name => do
        let p1 ← consumeE p
        if isEqOp p1 then do
          let p2 ← consumeE p1
          let r ← parseGo f .pExpr p2
          let (v, p3) ← asNode r
          if isSym p3 ';' then do
            let p4 ← consumeE p3
            .ok (.node (.assignment name v isDecl), p4)
          else .error .parseFail
        else .error .parseFail
      | _ => .error .parseFail
    | .pExpr => parseGo f (.pBinary 1) p
    | .pBinary prec => do
      let r ← parseGo f .pUnary p
      let (left, p1) ← asNode r
      parseGo f (.pBinaryLoop prec left) p1
    | .pBinaryLoop prec left =>
      match opFirst p with
      | some c =>
        if get_binary_precedence c ≥ prec then do
          let op := get_binary_operator c
          let p1 ← consumeE p
          let r ← parseGo f (.pBinary (get_binary_precedence c + 1)) p1
          let (right, p2) ← asNode r
          parseGo f (.pBinaryLoop prec (.binary op left right)) p2
        else .ok (.node left, p)
      | none => .ok (.node left, p)
    | .pUnary =>
      match opFirst p with
      | some c =>
        if c == '-' || c == '!' then do
          let op := if c == '-' then Op.neg else Op.not
          let p1 ← consumeE p
          let r ← parseGo f .pUnary p1
          let (operand, p2) ← asNode r
          .ok (.node (.unary op operand), p2)
        else parseGo f .pPrimary p
      | none => parseGo f .pPrimary p
    | .pPrimary =>
      match p.cur with
      | .number s =>
        -- atof reads from the token start pointer: token text then the
        -- unconsumed source; the consume result is not checked here
        let v := atofQ (s.data ++ p.rest)
        let p1 := (consume p).getD p
        .ok (.node (.numLit v), p1)
      | .strTok s =>
        let p1 := (consume p).getD p
        .ok (.node (.strLit s), p1)
      | .keyword kw =>
        if kw == "true" || kw == "false" then
          -- the C computes the value by strcmp on the unterminated token
          -- pointer: true only when the rest of the whole source equals
          -- the word true
          let v := String.mk (kw.data ++ p.rest) == "true"
          let p1 := (consume p).getD p
          .ok (.node (.boolLit v), p1)
        else if kw == "null" then
          let p1 := (consume p).getD p
          .ok (.node .nullLit, p1)
        else .error .parseFail
      | .ident name => do
        let p1 ← consumeE p
        if isSym p1 '(' then do
          let p2 ← consumeE p1
          parseGo f (.pCallArgs name []) p2
        else .ok (.node (.variable name), p1)
      | .symbol c =>
        if c == '(' then do
          let p1 ← consumeE p
          let r ← parseGo f .pExpr p1
          let (e, p2) ← asNode r
          if isSym p2 ')' then do
            let p3 ← consumeE p2
            .ok (.node e, p3)
          else .error .parseFail
        else .error .parseFail
      | _ => .error .parseFail
    | .pCallArgs name acc =>
      if isSym p ')' then do
        let p1 ← consumeE p
        .ok (.node (.call name acc.reverse), p1)
      else do
        let p1 ←
          if acc.isEmpty then pure p
          else if isSym p ',' then consumeE p
          else .error .parseFail
        let r ← parseGo f .pExpr p1
        let (arg, p2) ← asNode r
        parseGo f (.pCallArgs name (arg :: acc)) p2
    | .pBlock =>
      if isSym p '\x7b' then do
        let p1 ← consumeE p
        parseGo f (.pBlockLoop []) p1
      else .error .parseFail
    | .pBlockLoop acc =>
      if isSym p '\x7d' then do
        let p1 ← consumeE p
        .ok (.node (.block acc.reverse), p1)
      else if p.cur == .eof then .error .parseFail
      else do
        let r ← parseGo f .pStatement p
        let (stmt, p1) ← asNode r
        parseGo f (.pBlockLoop (stmt :: acc)) p1
    | .pIf =>
      if isKw p "if" then do
        let p1 ← consumeE p
        if isSym p1 '(' then do
          let p2 ← consumeE p1
          let r ← parseGo f .pExpr p2
          let (cond, p3) ← asNode r
          if isSym p3 ')' then do
            let p4 ← consumeE p3
            let r2 ← parseGo f .pStatement p4
            let (thenB, p5) ← asNode r2
            if isKw p5 "else" then do
              let p6 ← consumeE p5
              let r3 ← parseGo f .pStatement p6
              let (elseB, p7) ← asNode r3
              .ok (.node (.ifStmt cond thenB (some elseB)), p7)
            else .ok (.node (.ifStmt cond thenB none), p5)
          else .error .parseFail
        else .error .parseFail
      else .error .parseFail
    | .pWhile =>
      -- parse_while is entered with the while keyword still current (the
      -- statement dispatch does not consume it) and immediately demands an
      -- opening parenthesis, so this branch always fails on real input
      if isSym p '(' then do
        let p1 ← consumeE p
        let r ← parseGo f .pExpr p1
        let (cond, p2) ← asNode r
        if isSym p2 ')' then do
          let p3 ← consumeE p2
          let r2 ← parseGo f .pStatement p3
          let (body, p4) ← asNode r2
          .ok (.node (.whileLoop cond body), p4)
        else .error .parseFail
      else .error .parseFail
    | .pFunction =>
      -- parse_function is likewise entered with the function keyword still
      -- current and demands an identifier, so it always fails; the strdup
      -- of the unterminated token pointer is modelled faithfully below
      match p.cur with
      | .ident nm => do
        let name := String.mk (nm.data ++ p.rest)
        let p1 ← consumeE p
        if isSym p1 '(' then do
          let p2 ← consumeE p1
          let r ← parseGo f (.pParamsLoop []) p2
          let (params, p3) ← asNames r
          let r2 ← parseGo f .pStatement p3
          let (body, p4) ← asNode r2
          .ok (.node (.funcDecl name params body), p4)
        else .error .parseFail
      | _ => .error .parseFail
    | .pParamsLoop acc =>
      if isSym p ')' then do
        let p1 ← consumeE p
        .ok (.names acc.reverse, p1)
      else do
        let p1 ←
          if acc.isEmpty then pure p
          else if isSym p ',' then consumeE p
          else .error .parseFail
        match p1.cur with
        | .ident nm => do
          let param := String.mk (nm.data ++ p1.rest)
          let p2 ← consumeE p1
          parseGo f (.pParamsLoop (param :: acc)) p2
        | _ => .error .parseFail
    | .pReturn => do
      -- parse_return: consume the return keyword, optional value,
      -- semicolon
      let p1 ← consumeE p
      if isSym p1 ';' then do
        let p2 ← consumeE p1
        .ok (.node (.ret none), p2)
      else do
        let r ← parseGo f .pExpr p1
        let (v, p2) ← asNode r
        if isSym p2 ';' then do
          let p3 ← consumeE p2
          .ok (.node (.ret (some v)), p3)
        else .error .parseFail

/-- dm_parser_parse: run the program task over a fresh parser state.  The
result is the AST or a failure (the C maps every failure to
DM_ERROR_SYNTAX_ERROR; the model keeps the genuine parse failure apart from
fuel exhaustion). -/
def dm_parser_parse (fuel : Nat) (source : String) : Except PErr Node :=
  match parseGo fuel .pProgram ⟨.eof, source.data⟩ with
  | .ok (.node n, _) => .ok n
  | .ok (.names _, _) => .error .parseFail
  | .error e => .error e

end DMKernel

namespace DMKernel

/-- Truncation toward zero, as C fmod computes its quotient. -/
def truncQ (q : Rat) : Int := if q < 0 then ceilQ q else floorQ q

/-- Exact model of C fmod for the modulo operator (only reached with a
nonzero divisor). -/
def fmodQ (a b : Rat) : Rat := a - (truncQ (a / b) : Rat) * b

/-- The operator switch of eval_binary, applied after both operands have
already been evaluated (the C evaluates left and right up front; the
short-circuit branch below only skips the boolean coercion of the right
operand, not its evaluation). -/
def eval_binary_op (op : Op) (l r : Lit) : Except Err Lit :=
  match op with
  | .add | .sub | .mul | .div | .mod =>
    match litToNum l, litToNum r with
    | some a, some b =>
      match op with
      | .add => .ok (.num (a + b))
      | .sub => .ok (.num (a - b))
      | .mul => .ok (.num (a * b))
      | .div => if b = 0 then .error .divisionByZero else .ok (.num (a / b))
      | .mod => if b = 0 then .error .divisionByZero else .ok (.num (fmodQ a b))
      | _ => .error .invalidArgument
    | _, _ => .error .typeMismatch
  | .eq | .neq =>
    let equal : Bool :=
      match l, r with
      | .null, .null => true
      | .bool a, .bool b => a == b
      | .num a, .num b => a == b
      | .str a, .str b => a == b
      | _, _ => false
    .ok (.bool (if op == .eq then equal else !equal))
  | .lt | .gt | .lte | .gte =>
    match l, r with
    | .num a, .num b =>
      match op with
      | .lt => .ok (.bool (decide (a < b)))
      | .gt => .ok (.bool (decide (a > b)))
      | .lte => .ok (.bool (decide (a ≤ b)))
      | .gte => .ok (.bool (decide (a ≥ b)))
      | _ => .error .invalidArgument
    | _, _ => .error .typeMismatch
  | .and | .or =>
    let lb := litTruthy l
    if (op == .and && !lb) || (op == .or && lb) then .ok (.bool lb)
    else
      let rb := litTruthy r
      .ok (.bool (if op == .and then lb && rb else lb || rb))
  | _ => .error .invalidArgument

/-- The operator switch of eval_unary: negation needs a number, logical not
needs a boolean. -/
def eval_unary_op (op : Op) (v : Lit) : Except Err Lit :=
  match op with
  | .neg =>
    match v with
    | .num q => .ok (.num (-q))
    | _ => .error .typeMismatch
  | .not =>
    match v with
    | .bool b => .ok (.bool !b)
    | _ => .error .typeMismatch
  | _ => .error .invalidArgument

/-- Bind call arguments to parameter names in a fresh activation scope, in
order, exactly as the argument loop of eval_function_call defines each
converted argument value into the function scope. -/
def bindParams : List String → List Lit → Scope → Scope
  | p :: ps, v :: vs, s => bindParams ps vs (dm_scope_define_one s p (litToValue v))
  | _, _, s => s

/-- Statements whose results eval_program does not echo: assignments and
function declarations. -/
def shouldPrint : Node → Bool
  | .assignment _ _ _ => false
  | .funcDecl _ _ _ => false
  | _ => true

/-- Evaluator tasks: a node, the statement loop of eval_block, the statement
loop of eval_program (which echoes results), the argument loop of
eval_function_call, and the iteration of eval_while (latest carries the
last body result). -/
inductive ETask where
  | enode (n : Node)
  | eseq (stmts : List Node) (latest : Option Lit)
  | eprog (stmts : List Node) (latest : Option Lit)
  | eargs (args : List Node) (acc : List Lit)
  | ewhile (cond body : Node) (latest : Option Lit)

/-- Evaluator intermediate results: one literal, the optional last statement
result of a loop, or the evaluated argument list. -/
inductive EOut where
  | elit (v : Lit)
  | eopt (v : Option Lit)
  | elist (vs : List Lit)

/-- Continuation on a literal result: run k on a successful literal, turn a
non-literal success into INVALID_ARGUMENT, and propagate errors with their
state, mirroring the check-error-and-continue sequencing of the C call
sites of dm_eval_node. -/
def thenLit (r : (Except Err EOut) × St) (k : Lit → St → (Except Err EOut) × St) :
    (Except Err EOut) × St :=
  match r with
  | (.ok (.elit v), st) => k v st
  | (.ok _, st) => (.error .invalidArgument, st)
  | (.error e, st) => (.error e, st)

/-- Continuation on the optional last result of a statement loop. -/
def thenOpt (r : (Except Err EOut) × St) (k : Option Lit → St → (Except Err EOut) × St) :
    (Except Err EOut) × St :=
  match r with
  | (.ok (.eopt v), st) => k v st
  | (.ok _, st) => (.error .invalidArgument, st)
  | (.error e, st) => (.error e, st)

/-- Continuation on an evaluated argument list. -/
def thenList (r : (Except Err EOut) × St) (k : List Lit → St → (Except Err EOut) × St) :
    (Except Err EOut) × St :=
  match r with
  | (.ok (.elist vs), st) => k vs st
  | (.ok _, st) => (.error .invalidArgument, st)
  | (.error e, st) => (.error e, st)

/-- Projection of a statement-loop result for eval_block and eval_program:
the last statement result, or a null literal when no statement ran. -/
def optOut (r : Except Err EOut) : Except Err EOut :=
  match r with
  | .ok (.eopt o) => .ok (.elit (o.getD .null))
  | .ok _ => .error .invalidArgument
  | .error e => .error e

/-- Pop the innermost scope of a state: the restore of the previous current
scope plus dm_scope_destroy that eval_block and eval_function_call perform
on every exit path. -/
def popScope (st : St) : St := { st with scopes := st.scopes.tail }

/-- The tree-walking evaluator dm_eval_node and its helpers from exec.c, one
step per task.  The state is threaded through error returns as well, since
the C context (scopes, output) survives an error.  Each recursive call
spends one unit of fuel. -/
def evalGo : Nat → ETask → St → (Except Err EOut) × St
  | 0, _, st => (.error .noFuel, st)
  | f + 1, task, st =>
    match task with
    | .enode n =>
      match n with
      | .numLit q => (.ok (.elit (.num q)), st)
      | .strLit s => (.ok (.elit (.str s)), st)
      | .boolLit b => (.ok (.elit (.bool b)), st)
      | .nullLit => (.ok (.elit .null), st)
      | .variable name =>
        -- eval_variable: scope-chain lookup, UNDEFINED_VARIABLE on failure
        match dm_scope_lookup st.scopes name with
        | some v => (.ok (.elit (valueToLit v)), st)
        | none => (.error .undefinedVariable, st)
      | .assignment name value isDecl =>
        -- eval_assignment: evaluate the right-hand side first, then define
        -- (declarations) or check-then-define (plain assignments)
        thenLit (evalGo f (.enode value) st) fun v st1 =>
          if isDecl then
            (.ok (.elit v),
             { st1 with scopes := defineCurrent st1.scopes name (litToValue v) })
          else
            match dm_scope_lookup st1.scopes name with
            | some _ =>
              (.ok (.elit v),
               { st1 with scopes := defineCurrent st1.scopes name (litToValue v) })
            | none => (.error .undefinedVariable, st1)
      | .binary op l r =>
        -- eval_binary: both operands are evaluated before the operator
        -- switch runs, including for the logical operators
        thenLit (evalGo f (.enode l) st) fun lv st1 =>
          thenLit (evalGo f (.enode r) st1) fun rv st2 =>
            match eval_binary_op op lv rv with
            | .ok v => (.ok (.elit v), st2)
            | .error e => (.error e, st2)
      | .unary op e =>
        thenLit (evalGo f (.enode e) st) fun v st1 =>
          match eval_unary_op op v with
          | .ok w => (.ok (.elit w), st1)
          | .error err => (.error err, st1)
      | .block stmts =>
        -- eval_block: push a fresh scope, run the statements, restore the
        -- previous scope and destroy the block scope on every exit path
        let r := evalGo f (.eseq stmts none) { st with scopes := [] :: st.scopes }
        (optOut r.1, popScope r.2)
      | .ifStmt c t e =>
        thenLit (evalGo f (.enode c) st) fun cv st1 =>
          if litTruthy cv then evalGo f (.enode t) st1
          else
            match e with
            | some eb => evalGo f (.enode eb) st1
            | none => (.ok (.elit .null), st1)
      | .whileLoop c b => evalGo f (.ewhile c b none) st
      | .call name args =>
        -- eval_function_call: look the callee up, check it is a function,
        -- check arity, evaluate arguments in the caller scope, bind them in
        -- a fresh activation scope whose parent is the caller scope, run
        -- the body, restore and destroy
        match dm_scope_lookup st.scopes name with
        | none => (.error .undefinedVariable, st)
        | some (.vfunction params body) =>
          if args.length != params.length then (.error .invalidArgument, st)
          else
            thenList (evalGo f (.eargs args []) st) fun vals st1 =>
              let r := evalGo f (.enode body)
                { st1 with scopes := bindParams params vals [] :: st1.scopes }
              (r.1, popScope r.2)
        | some _ => (.error .typeMismatch, st)
      | .funcDecl name params body =>
        -- eval_function_declaration: bind the function value in the current
        -- scope and return the function name as a string
        (.ok (.elit (.str name)),
         { st with scopes := defineCurrent st.scopes name (.vfunction params body) })
      | .ret v =>
        -- eval_return: evaluate the value (or produce null) and return it
        -- as an ordinary result; no unwinding signal is produced
        match v with
        | some vn => evalGo f (.enode vn) st
        | none => (.ok (.elit .null), st)
      | .program stmts =>
        let r := evalGo f (.eprog stmts none) st
        (optOut r.1, r.2)
    | .eseq stmts latest =>
      match stmts with
      | [] => (.ok (.eopt latest), st)
      | s :: rest =>
        thenLit (evalGo f (.enode s) st) fun v st1 =>
          evalGo f (.eseq rest (some v)) st1
    | .eprog stmts latest =>
      match stmts with
      | [] => (.ok (.eopt latest), st)
      | s :: rest =>
        thenLit (evalGo f (.enode s) st) fun v st1 =>
          -- eval_program echoes every result that is not an assignment or
          -- a function declaration; an error returns before any echo
          let st2 :=
            if shouldPrint s then
              { st1 with output := st1.output ++ ["=> " ++ dm_node_to_string v ++ "\n"] }
            else st1
          evalGo f (.eprog rest (some v)) st2
    | .eargs args acc =>
      match args with
      | [] => (.ok (.elist acc.reverse), st)
      | a :: rest =>
        thenLit (evalGo f (.enode a) st) fun v st1 =>
          evalGo f (.eargs rest (v :: acc)) st1
    | .ewhile c b latest =>
      thenLit (evalGo f (.enode c) st) fun cv st1 =>
        if litTruthy cv then
          thenLit (evalGo f (.enode b) st1) fun bv st2 =>
            evalGo f (.ewhile c b (some bv)) st2
        else (.ok (.elit (latest.getD .null)), st1)

/-- dm_eval_node on a node, projecting the literal result. -/
def dm_eval_node (fuel : Nat) (n : Node) (st : St) : (Except Err Lit) × St :=
  match evalGo fuel (.enode n) st with
  | (.ok (.elit v), st1) => (.ok v, st1)
  | (.ok _, st1) => (.error .invalidArgument, st1)
  | (.error e, st1) => (.error e, st1)

/-- The interpreter context right after dm_init: a single global scope that
holds only the VFS object (dm_fs_init defines it under the name dm_vfs),
and an empty output stream. -/
def initSt : St := { scopes := [[("dm_vfs", Value.vobject)]], output := [] }

/-- dm_execute_source: parse, then evaluate the tree on the initial context.
A parse failure surfaces as DM_ERROR_SYNTAX_ERROR and nothing is evaluated
or printed. -/
def dm_execute_source (fuel : Nat) (source : String) : (Except Err Lit) × St :=
  match dm_parser_parse fuel source with
  | .error _ => (.error .syntaxError, initSt)
  | .ok ast => dm_eval_node fuel ast initSt

/-- Exit code of a freshly created context: dm_context_create sets
exit_code to 0 and nothing in script execution ever changes it. -/
def dm_context_create_exit_code : Int := 0

/-- The tail of main for script mode (main.c): the local exit code starts at
zero, is set to 1 when dm_execute_file fails, and is then unconditionally
overwritten with the context exit code before being returned. -/
def main_script_exit (script_result : Except Err Unit) : Int :=
  let exit_code : Int := 0
  let exit_code : Int :=
    match script_result with
    | .error _ => 1
    | .ok _ => exit_code
  let exit_code : Int := dm_context_create_exit_code
  exit_code

end DMKernel

namespace DMKernel



/-- defineCurrent leaves every scope but the innermost unchanged. -/
theorem defineCurrent_tail (c : List Scope) (n : String) (v : Value) :
    (defineCurrent c n v).tail = c.tail := by
  cases c <;> simp [defineCurrent]

/-- thenLit preserves a scope-tail invariant that its input satisfies and
its continuation maintains. -/
theorem thenLit_tail {r : (Except Err EOut) × St} {k : Lit → St → (Except Err EOut) × St}
    {target : List Scope}
    (hr : r.2.scopes.tail = target)
    (hk : ∀ v st1, st1.scopes.tail = target → (k v st1).2.scopes.tail = target) :
    (thenLit r k).2.scopes.tail = target := by
  rcases r with ⟨rr, st1⟩
  rcases rr with e | (v | o | vs) <;> simp [thenLit] <;> simp at hr <;>
    first
    | exact hr
    | exact hk _ st1 hr

/-- thenOpt preserves a scope-tail invariant. -/
theorem thenOpt_tail {r : (Except Err EOut) × St} {k : Option Lit → St → (Except Err EOut) × St}
    {target : List Scope}
    (hr : r.2.scopes.tail = target)
    (hk : ∀ v st1, st1.scopes.tail = target → (k v st1).2.scopes.tail = target) :
    (thenOpt r k).2.scopes.tail = target := by
  rcases r with ⟨rr, st1⟩
  rcases rr with e | (v | o | vs) <;> simp [thenOpt] <;> simp at hr <;>
    first
    | exact hr
    | exact hk _ st1 hr

/-- thenList preserves a scope-tail invariant. -/
theorem thenList_tail {r : (Except Err EOut) × St} {k : List Lit → St → (Except Err EOut) × St}
    {target : List Scope}
    (hr : r.2.scopes.tail = target)
    (hk : ∀ v st1, st1.scopes.tail = target → (k v st1).2.scopes.tail = target) :
    (thenList r k).2.scopes.tail = target := by
  rcases r with ⟨rr, st1⟩
  rcases rr with e | (v | o | vs) <;> simp [thenList] <;> simp at hr <;>
    first
    | exact hr
    | exact hk _ st1 hr

/-- Every evaluator step leaves every scope except the current innermost one
unchanged: dm_scope_define only ever targets the current scope, and every
scope a block or a call pushes is destroyed on all exit paths. -/
theorem evalGo_scopes_tail (fuel : Nat) :
    ∀ (task : ETask) (st : St),
      (evalGo fuel task st).2.scopes.tail = st.scopes.tail := by
  induction fuel with
  | zero => intro task st; simp [evalGo]
  | succ f ih =>
    intro task st
    cases task with
    | enode n =>
      cases n with
      | numLit q => simp [evalGo]
      | strLit s => simp [evalGo]
      | boolLit b => simp [evalGo]
      | nullLit => simp [evalGo]
      | «variable» name =>
        simp only [evalGo]
        split <;> simp
      | assignment name value isDecl =>
        simp only [evalGo]
        refine thenLit_tail (ih (.enode value) st) ?_
        intro v st1 h1
        split
        · simpa [defineCurrent_tail] using h1
        · split <;> simpa [defineCurrent_tail] using h1
      | binary op l r =>
        simp only [evalGo]
        refine thenLit_tail (ih (.enode l) st) ?_
        intro lv st1 h1
        refine thenLit_tail ((ih (.enode r) st1).trans h1) ?_
        intro rv st2 h2
        split <;> simpa using h2
      | unary op e =>
        simp only [evalGo]
        refine thenLit_tail (ih (.enode e) st) ?_
        intro v st1 h1
        split <;> simpa using h1
      | block stmts =>
        simp only [evalGo]
        have h := ih (.eseq stmts none) { st with scopes := [] :: st.scopes }
        simp at h
        simp [popScope, h]
      | ifStmt c t e =>
        simp only [evalGo]
        refine thenLit_tail (ih (.enode c) st) ?_
        intro cv st1 h1
        split
        · exact (ih (.enode t) st1).trans h1
        · split
          · exact (ih (.enode _) st1).trans h1
          · simpa using h1
      | whileLoop c b =>
        simp only [evalGo]
        exact ih (.ewhile c b none) st
      | call name args =>
        simp only [evalGo]
        split
        · simp
        · rename_i params body heq
          split
          · simp
          · refine thenList_tail (ih (.eargs args []) st) ?_
            intro vals st1 h1
            have h := ih (.enode body)
              { st1 with scopes := bindParams params vals [] :: st1.scopes }
            simp at h
            simp [popScope, h, h1]
        · simp
      | funcDecl name params body =>
        simp [evalGo, defineCurrent_tail]
      | ret v =>
        simp only [evalGo]
        split
        · exact ih (.enode _) st
        · simp
      | program stmts =>
        simp only [evalGo]
        exact ih (.eprog stmts none) st
    | eseq stmts latest =>
      simp only [evalGo]
      split
      · simp
      · refine thenLit_tail (ih (.enode _) st) ?_
        intro v st1 h1
        exact (ih (.eseq _ _) st1).trans h1
    | eprog stmts latest =>
      simp only [evalGo]
      split
      · simp
      · refine thenLit_tail (ih (.enode _) st) ?_
        intro v st1 h1
        split <;> exact (ih (.eprog _ _) _).trans h1
    | eargs args acc =>
      simp only [evalGo]
      split
      · simp
      · refine thenLit_tail (ih (.enode _) st) ?_
        intro v st1 h1
        exact (ih (.eargs _ _) st1).trans h1
    | ewhile c b latest =>
      simp only [evalGo]
      refine thenLit_tail (ih (.enode c) st) ?_
      intro cv st1 h1
      split
      · refine thenLit_tail ((ih (.enode b) st1).trans h1) ?_
        intro bv st2 h2
        exact (ih (.ewhile c b _) st2).trans h2
      · simpa using h1

/-- Evaluating a block statement returns with exactly the scope chain it was
entered with: the pushed scope is popped on every exit path and inner
statements only ever mutate scopes at or inside that pushed scope. -/
theorem evalGo_block_scopes (fuel : Nat) (stmts : List Node) (st : St) :
    (evalGo fuel (.enode (.block stmts)) st).2.scopes = st.scopes := by
  cases fuel with
  | zero => simp [evalGo]
  | succ f =>
    simp only [evalGo]
    have h := evalGo_scopes_tail f (.eseq stmts none) { st with scopes := [] :: st.scopes }
    simp at h
    simp [popScope, h]



/-- Successful dm_eval_node results correspond exactly to literal evalGo
results. -/
theorem dm_eval_node_ok_iff {fuel : Nat} {n : Node} {st : St} {v : Lit} {st1 : St} :
    dm_eval_node fuel n st = (.ok v, st1) ↔
      evalGo fuel (.enode n) st = (.ok (.elit v), st1) := by
  unfold dm_eval_node
  rcases h : evalGo fuel (.enode n) st with ⟨r, s2⟩
  rcases r with e | (w | o | vs) <;> simp [Prod.ext_iff]

end DMKernel

namespace DMKernel

/-- Successful and failing dm_eval_node calls share their state with the
underlying evaluator step. -/
theorem dm_eval_node_snd (fuel : Nat) (n : Node) (st : St) :
    (dm_eval_node fuel n st).2 = (evalGo fuel (.enode n) st).2 := by
  unfold dm_eval_node
  rcases h : evalGo fuel (.enode n) st with ⟨r, s2⟩
  rcases r with e | (w | o | vs) <;> simp

/-- Claim C1 (code bug in eval_binary): the claim says the right operand of a
short-circuit operator is never evaluated when the left operand determines
the result.  The code evaluates both operands before the operator switch;
the short-circuit branch only skips the boolean coercion of the right
result.  Hence evaluating false AND (1/0), or true OR (1/0), raises
DIVISION_BY_ZERO from the right operand instead of returning the left
boolean, even though the operator switch itself (third conjunct) would have
produced the left boolean without consulting the right value. -/
theorem claim_C1_right_operand_evaluated :
    (dm_eval_node 50 (.binary .and (.boolLit false)
        (.binary .div (.numLit 1) (.numLit 0))) initSt).1 = .error .divisionByZero ∧
    (dm_eval_node 50 (.binary .or (.boolLit true)
        (.binary .div (.numLit 1) (.numLit 0))) initSt).1 = .error .divisionByZero ∧
    eval_binary_op .and (.bool false) (.num 5) = .ok (.bool false) :=
  ⟨rfl, rfl, rfl⟩

/-- Claim C2 (code bug in eval_return): the claim says a return statement
unwinds evaluation out of the current activation, so a function whose body
is return 1 followed by the statement 2 yields 1 when called.  eval_return
merely evaluates the value and returns it as an ordinary result, and
eval_block keeps executing the remaining statements, so calling such a
function yields 2, both through a full program with a call and for the bare
body block. -/
theorem claim_C2_return_does_not_unwind :
    (dm_eval_node 50 (.program
        [.funcDecl "f" [] (.block [.ret (some (.numLit 1)), .numLit 2]),
         .call "f" []]) initSt).1 = .ok (.num 2) ∧
    (dm_eval_node 50 (.block [.ret (some (.numLit 1)), .numLit 2]) initSt).1 = .ok (.num 2) :=
  ⟨rfl, rfl⟩

/-- Claim C3 (code bug in get_binary_precedence): the claim says the
expression parser accepts the equality, relational and logical operator
levels, and that the program if (1 < 2) then yes else no parses and
evaluates to yes.  The precedence table assigns 0 to every character
outside the five arithmetic operators, so the condition parses as the bare
literal 1 and the following < token fails the closing-parenthesis check:
the program is a syntax error (a genuine parse failure, not fuel
exhaustion).  The evaluator itself does implement the comparison (last
conjunct), so the gap is in the parser table only. -/
theorem claim_C3_relational_ops_not_parsed :
    dm_parser_parse 300 "if (1 < 2) \x7b \"yes\"; \x7d else \x7b \"no\"; \x7d" = .error .parseFail ∧
    get_binary_precedence '<' = 0 ∧
    get_binary_precedence '=' = 0 ∧
    get_binary_precedence '&' = 0 ∧
    eval_binary_op .lt (.num 1) (.num 2) = .ok (.bool true) :=
  ⟨rfl, rfl, rfl, rfl, rfl⟩

/-- Claim C4 (code bug in parse_statement): the claim says a statement
beginning with an identifier not followed by the assignment operator is
parsed as an expression statement, so x * 2; and add(3, 7); are accepted.
The identifier branch of parse_statement only accepts a bare variable
reference followed immediately by a semicolon, so both programs are syntax
errors; a bare reference such as x; does work (last conjunct). -/
theorem claim_C4_expression_statement_rejected :
    dm_parser_parse 300 "let x = 42; x * 2;" = .error .parseFail ∧
    dm_parser_parse 300 "add(3, 7);" = .error .parseFail ∧
    (dm_execute_source 300 "let x = 42; x;").1 = .ok (.num 42) :=
  ⟨rfl, rfl, rfl⟩

/-- Claim C5 (code bug in parse_while and get_binary_precedence): the claim
says the while-loop summation program runs and its final statement
evaluates to 10.  The program is a syntax error: parse_while is entered
with the while keyword still current (the statement dispatch never consumes
it) and immediately fails expecting an opening parenthesis, as the second
conjunct shows even for a condition made only of supported tokens; the
comparison operator of the loop condition is additionally missing from the
parser table. -/
theorem claim_C5_while_program_rejected :
    dm_parser_parse 400
        "let i = 0; let s = 0; while (i < 5) \x7b s = s + i; i = i + 1; \x7d s;"
      = .error .parseFail ∧
    dm_parser_parse 300 "while (1) \x7b 2; \x7d" = .error .parseFail :=
  ⟨rfl, rfl⟩

/-- Claim C6 (confirmed): multiplicative operators bind tighter than
additive ones, binary operators associate to the left, unary minus binds
tighter than multiplication, and numeric results display in printf %f form:
1 + 2 * 3 evaluates to 7, (1 + 2) * 3 to 9, -2 * 3 to -6, 10 - 4 - 3 to 3,
and 10 + 5 prints the line with 15.000000. -/
theorem claim_C6_precedence_and_display :
    (dm_execute_source 100 "1 + 2 * 3;").1 = .ok (.num 7) ∧
    (dm_execute_source 100 "(1 + 2) * 3;").1 = .ok (.num 9) ∧
    (dm_execute_source 100 "-2 * 3;").1 = .ok (.num (-6)) ∧
    (dm_execute_source 100 "10 - 4 - 3;").1 = .ok (.num 3) ∧
    (dm_execute_source 100 "10 + 5;").1 = .ok (.num 15) ∧
    (dm_execute_source 100 "10 + 5;").2.output = ["=> 15.000000\n"] :=
  ⟨rfl, rfl, rfl, rfl, rfl, rfl⟩

/-- Claim C7 (confirmed): whenever the division or modulo operator is
evaluated with a right operand that coerces to the number zero (and a left
operand that coerces to a number at all), evaluation fails with
DIVISION_BY_ZERO; and the program 1 / 0; raises DIVISION_BY_ZERO while
producing no result output line. -/
theorem claim_C7_division_by_zero :
    (∀ (fuel : Nat) (op : Op) (l r : Node) (st st1 st2 : St) (lv rv : Lit) (a : Rat),
       op = .div ∨ op = .mod →
       dm_eval_node fuel l st = (.ok lv, st1) →
       dm_eval_node fuel r st1 = (.ok rv, st2) →
       litToNum lv = some a →
       litToNum rv = some 0 →
       dm_eval_node (fuel + 1) (.binary op l r) st = (.error .divisionByZero, st2)) ∧
    (dm_execute_source 100 "1 / 0;").1 = .error .divisionByZero ∧
    (dm_execute_source 100 "1 / 0;").2.output = [] := by
  refine ⟨?_, rfl, rfl⟩
  intro fuel op l r st st1 st2 lv rv a hop hl hr hlv hrv
  rw [dm_eval_node_ok_iff] at hl hr
  have hbin : eval_binary_op op lv rv = .error .divisionByZero := by
    rcases hop with h | h <;> subst h <;> simp [eval_binary_op, hlv, hrv]
  unfold dm_eval_node
  simp only [evalGo, hl, hr, thenLit, hbin]

theorem claim_C7_division_by_zero_witness :
    dm_eval_node 2 (.binary .div (.numLit 1) (.numLit 0)) initSt
      = (.error .divisionByZero, initSt) :=
  claim_C7_division_by_zero.1 1 .div (.numLit 1) (.numLit 0) initSt initSt initSt
    (.num 1) (.num 0) 1 (Or.inl rfl) rfl rfl rfl rfl

/-- Claim C8 (confirmed): evaluating a block always creates a fresh
innermost scope and destroys it on exit, leaving the scope chain exactly as
it was on entry, for every statement list, state and fuel; consequently the
nested-shadowing program evaluates to 2, and consulting x after the inner
block yields the outer binding 1 again. -/
theorem claim_C8_block_scoping :
    (∀ (fuel : Nat) (stmts : List Node) (st : St),
       (dm_eval_node fuel (.block stmts) st).2.scopes = st.scopes) ∧
    (dm_execute_source 100 "\x7b let x = 1; \x7b let x = 2; x; \x7d \x7d").1 = .ok (.num 2) ∧
    (dm_execute_source 100 "\x7b let x = 1; \x7b let x = 2; x; \x7d x; \x7d").1 = .ok (.num 1) := by
  refine ⟨?_, rfl, rfl⟩
  intro fuel stmts st
  rw [dm_eval_node_snd]
  exact evalGo_block_scopes fuel stmts st

/-- Claim C9 (code bug in main): the claim says script execution exits with
code 1 on any fatal error.  main sets its local exit code to 1 when
dm_execute_file fails, but then unconditionally overwrites it with the
context exit code, which dm_context_create initialises to 0 and nothing in
script execution ever changes, so the process exits with 0 for file-not-
found, syntax and runtime errors alike. -/
theorem claim_C9_exit_code_clobbered :
    main_script_exit (.error .fileIoErr) = 0 ∧
    main_script_exit (.error .syntaxError) = 0 ∧
    main_script_exit (.error .divisionByZero) = 0 ∧
    main_script_exit (.ok ()) = 0 ∧
    dm_context_create_exit_code = 0 :=
  ⟨rfl, rfl, rfl, rfl, rfl⟩

/-- Claim C10 (confirmed): a non-declaration assignment to a name that is
not bound anywhere in the scope chain fails with UNDEFINED_VARIABLE and
leaves the state exactly as the right-hand side evaluation left it, so no
binding is created in any scope; the right-hand side is evaluated before
the check, so an erroring right-hand side reports its own error instead
(second and fifth conjuncts). -/
theorem claim_C10_assign_undefined :
    (∀ (fuel : Nat) (x : String) (e : Node) (st st1 : St) (v : Lit),
       dm_eval_node fuel e st = (.ok v, st1) →
       dm_scope_lookup st1.scopes x = none →
       dm_eval_node (fuel + 1) (.assignment x e false) st
         = (.error .undefinedVariable, st1)) ∧
    (∀ (fuel : Nat) (x : String) (e : Node) (st st1 : St) (err : Err),
       dm_eval_node fuel e st = (.error err, st1) →
       dm_eval_node (fuel + 1) (.assignment x e false) st = (.error err, st1)) ∧
    (dm_execute_source 100 "x = 42;").1 = .error .undefinedVariable ∧
    (dm_execute_source 100 "x = 42;").2.scopes = [[("dm_vfs", Value.vobject)]] ∧
    (dm_execute_source 100 "x = 1 / 0;").1 = .error .divisionByZero := by
  refine ⟨?_, ?_, rfl, rfl, rfl⟩
  · intro fuel x e st st1 v hv hmiss
    rw [dm_eval_node_ok_iff] at hv
    unfold dm_eval_node
    simp only [evalGo, hv, thenLit, hmiss]
    simp
  · intro fuel x e st st1 err herr
    unfold dm_eval_node at herr ⊢
    rcases h : evalGo fuel (.enode e) st with ⟨r, s2⟩
    rw [h] at herr
    rcases r with e0 | (w | o | vs) <;> simp_all [evalGo, thenLit, h]

theorem claim_C10_assign_undefined_witness :
    dm_eval_node 2 (.assignment "x" (.numLit 42) false) initSt
      = (.error .undefinedVariable, initSt) :=
  claim_C10_assign_undefined.1 1 "x" (.numLit 42) initSt initSt (.num 42) rfl rfl


end DMKernel
